import Mathlib

/-!
Verification development for the transpilex repository.

This file shallowly embeds the algorithmic core of the converter:
the path restructurer and route derivation (`transpilex/utils/restructure.py`,
`transpilex/utils/casing.py`), the include-fragment extraction and parameter
parsing shared by the framework emitters (`transpilex/frameworks/laravel.py`,
`transpilex/frameworks/flask.py`), the pattern loader
(`transpilex/utils/pattern.py`) and the variable replacer
(`transpilex/utils/replace_variables.py`), and proves or refutes the frozen
claims about them.

Python strings are modelled as Lean `String`s (ASCII behaviour of
`str.lower`/`str.capitalize`; the converter only feeds ASCII file names and
template text through these helpers).  Fallible library calls (`json.loads`,
`ast.literal_eval`, `re.compile`) are modelled as `Option`-returning
functions, and `try`/`except` blocks as matches on those options.  All
definitions use structural or fuel recursion so that they evaluate inside
the kernel.
-/

namespace Transpilex

/-! ### Python character-class and string helpers -/

/-- Python regex `\s` (the ASCII whitespace characters). -/
def pyIsSpace (c : Char) : Bool :=
  c == ' ' || c == '\t' || c == '\n' || c == '\r' || c == '\x0b' || c == '\x0c'

/-- Python regex `\w` (ASCII word characters). -/
def pyIsWord (c : Char) : Bool :=
  c.isAlpha || c.isDigit || c == '_'

/-- Python `str.strip()` restricted to ASCII whitespace. -/
def pyStrip (s : String) : String :=
  String.mk (((s.data.dropWhile pyIsSpace).reverse.dropWhile pyIsSpace).reverse)

/-- Python `str.lower()` (ASCII). -/
def pyLower (s : String) : String :=
  String.mk (s.data.map Char.toLower)

/-- Python `str.capitalize()` (ASCII): first char upper, rest lower. -/
def pyCapitalize (s : String) : String :=
  match s.data with
  | [] => ""
  | c :: cs => String.mk (c.toUpper :: cs.map Char.toLower)

/-- Python `str.split(sep)` for a one-character separator: pieces between
occurrences of `sep`, keeping empty pieces (the result is never empty). -/
def splitCharAux (sep : Char) : List Char → List Char → List String
  | [], acc => [String.mk acc.reverse]
  | c :: cs, acc =>
    if c == sep then String.mk acc.reverse :: splitCharAux sep cs []
    else splitCharAux sep cs (c :: acc)

/-- Python `str.split('-')` on a string. -/
def splitDash (s : String) : List String :=
  splitCharAux '-' s.data []

/-- Whether the first list is an initial run of the second
(Python `str.startswith` on character lists). -/
def listIsInit : List Char → List Char → Bool
  | [], _ => true
  | _ :: _, [] => false
  | p :: ps, c :: cs => p == c && listIsInit ps cs

/-- Python `str.startswith`. -/
def pyStartsWith (s pre : String) : Bool :=
  listIsInit pre.data s.data

/-- Python `str.endswith`. -/
def pyEndsWith (s suf : String) : Bool :=
  listIsInit suf.data.reverse s.data.reverse

/-- Whether the string contains the character. -/
def strContains (s : String) (c : Char) : Bool :=
  s.data.any (fun x => x == c)

/-- Index of the last occurrence of `c` in `cs`, if any. -/
def lastIdxOf (c : Char) (cs : List Char) : Option Nat :=
  match List.findIdx? (fun x => x == c) cs.reverse with
  | none => none
  | some j => some (cs.length - 1 - j)

/-- Python `str.lstrip("/")`. -/
def lstripSlash (s : String) : String :=
  String.mk (s.data.dropWhile (fun c => c == '/'))

/-- Python `str.removesuffix`. -/
def removeSuffixStr (s suf : String) : String :=
  if pyEndsWith s suf then String.mk (s.data.take (s.data.length - suf.data.length))
  else s

/-- Python `str.replace(pat, repl)` over character lists: replace every
non-overlapping occurrence, scanning left to right.  `pat` is non-empty at
every call site.  Fuel-recursive so that it evaluates in the kernel. -/
def replaceAllAux (pat repl : List Char) : Nat → List Char → List Char
  | 0, cs => cs
  | _ + 1, [] => []
  | fuel + 1, c :: cs =>
    if listIsInit pat (c :: cs) then
      repl ++ replaceAllAux pat repl fuel ((c :: cs).drop pat.length)
    else
      c :: replaceAllAux pat repl fuel cs

/-- Python `str.replace(pat, repl)` (for non-empty `pat`). -/
def pyReplace (s pat repl : String) : String :=
  String.mk (replaceAllAux pat.data repl.data s.data.length s.data)

/-! ### transpilex/utils/casing.py -/

/-- A separator character of the regex `[\s_\-]+` used by `apply_casing`. -/
def sepChar (c : Char) : Bool :=
  pyIsSpace c || c == '_' || c == '-'

/-- Python `re.split(r'[\s_\-]+', s)`: the segments between maximal runs of
separator characters (empty segments appear at the boundaries, as in `re`).
Fuel-recursive; the wrapper supplies enough fuel for the whole input. -/
def splitSepsAux : Nat → List Char → List Char → List String
  | 0, rest, acc => [String.mk (acc.reverse ++ rest)]
  | _ + 1, [], acc => [String.mk acc.reverse]
  | fuel + 1, c :: cs, acc =>
    if sepChar c then
      String.mk acc.reverse :: splitSepsAux fuel (cs.dropWhile sepChar) []
    else
      splitSepsAux fuel cs (c :: acc)

/-- `apply_casing` from `transpilex/utils/casing.py`. -/
def apply_casing (text style : String) : String :=
  let stripped := pyStrip text
  let words := splitSepsAux (stripped.data.length + 1) stripped.data []
  if style = "kebab" then
    String.intercalate "-" (words.map pyLower)
  else if style = "snake" then
    String.intercalate "_" (words.map pyLower)
  else if style = "pascal" then
    String.join (words.map pyCapitalize)
  else if style = "camel" then
    match words with
    | [] => ""
    | w :: ws => pyLower w ++ String.join (ws.map pyCapitalize)
  else text

/-! ### transpilex/utils/restructure.py : keyword tables

`FOLDERS` and `NO_NESTING_FOLDERS` are Python sets; `_get_restructured_path`
iterates them as `sorted(FOLDERS, key=lambda x: -len(x.split('-')))`, i.e.
keywords with more hyphen-separated tokens first.  Two distinct keywords with
the same token count can never both equal the same token span, so only the
grouping by token count matters; we fix a list with the two-token keywords
first. -/

def FOLDERS_SORTED : List String :=
  ["auth-2", "auth-3", "auth-card", "auth-split", "auth-basic", "auth-cover",
   "auth-boxed", "auth-modern", "base-ui",
   "dashboard", "dashboards", "apps", "ecommerce", "hr", "project", "promo",
   "task", "users", "projects", "blog", "ticket", "forum", "crm", "email",
   "finance", "hospital", "hrm", "invoice", "pos", "pages", "misc", "plugins",
   "auth", "error", "layouts", "sidebar", "topbar", "sidenav", "ui", "form",
   "forms", "chart", "charts", "apex", "echart", "chartjs", "table", "tables",
   "datatables", "icon", "icons", "map", "maps", "utilities", "navigation",
   "landing", "invoices", "contacts"]

def NO_NESTING_FOLDERS : List String :=
  ["dashboard", "dashboards", "pages", "misc", "plugins", "auth", "auth-2",
   "auth-3", "auth-card", "auth-split", "auth-basic", "auth-cover",
   "auth-boxed", "auth-modern", "error", "ui", "base-ui", "form", "forms",
   "icon", "icons", "map", "maps", "landing"]

/-- `os.path.splitext` on a bare file name: split at the last dot, provided a
non-dot character precedes it. -/
def splitext (s : String) : String × String :=
  match lastIdxOf '.' s.data with
  | none => (s, "")
  | some i =>
    if (s.data.take i).any (fun c => c ≠ '.') then
      (String.mk (s.data.take i), String.mk (s.data.drop i))
    else (s, "")

/-- The first keyword (in the sorted iteration order) whose token list is a
prefix run of `rest`; returns the head token, the remaining tokens and the
keyword.  Mirrors the inner `for fw in sorted(FOLDERS, ...)` loop of
`_get_restructured_path`; keyword token lists are never empty (Python
`str.split` never returns an empty list), which the match shape records. -/
def findFolder (rest : List String) : Option (String × List String × String) :=
  FOLDERS_SORTED.findSome? (fun fw =>
    match splitDash fw with
    | [] => none
    | t :: ts =>
      if rest.take (ts.length + 1) = t :: ts then some (t, ts, fw) else none)

/-- The scanning loop of `_get_restructured_path`: returns
`(folder_parts, file_parts, stop_at_no_nest)`.

Python control flow mapped onto fuel recursion over the remaining tokens
(each step consumes at least one token, so fuel `length + 1` is exact):
a match whose span reaches the end of the token list puts the matched span
into the file parts and stops (flag not set, since the Python loop `break`s
before the `NO_NESTING_FOLDERS` check); a `NO_NESTING_FOLDERS` match keeps
the keyword as a folder and flattens everything after it into the file
parts; a non-match stops nesting and all remaining tokens become file
parts. -/
def scanPartsAux : Nat → List String → List String × List String × Bool
  | 0, rest => ([], rest, false)
  | _ + 1, [] => ([], [], false)
  | fuel + 1, t :: rest =>
    match findFolder (t :: rest) with
    | none => ([], t :: rest, false)
    | some (_, ts, fw) =>
      if ts.length + 1 ≥ (t :: rest).length then
        ([], t :: rest, false)
      else if NO_NESTING_FOLDERS.contains fw then
        ([fw], (t :: rest).drop (ts.length + 1), true)
      else
        let r := scanPartsAux fuel ((t :: rest).drop (ts.length + 1))
        (fw :: r.1, r.2.1, r.2.2)

def scanParts (parts : List String) : List String × List String × Bool :=
  scanPartsAux (parts.length + 1) parts

/-- The filename assembly of `_get_restructured_path`: splits the stem on
`-`, scans it, and rebuilds the final file name.  Returns
`(folder_parts, final_filename, stop_at_no_nest)`. -/
def restructureScan (filename : String) : List String × String × Bool :=
  let se := splitext filename
  let parts := splitDash se.1
  let r := scanParts parts
  let file :=
    if r.2.1 = [] ∧ r.1 ≠ [] then r.1.getLastD "" ++ se.2
    else if r.2.1 ≠ [] then String.intercalate "-" r.2.1 ++ se.2
    else filename
  (r.1, file, r.2.2)

/-- The destination path computed by `_get_restructured_path`, as the list of
path segments below `dest_root`.  `existingParent` is the file's directory
path relative to the source root (empty for a file at the root; pathlib drops
the `.` parent of a bare file name).  When `stop_at_no_nest` is set the
source returns `Path(dest_root, folder_parts[0], file)`. -/
def getRestructuredSegs (existingParent : List String) (filename : String) :
    List String :=
  let r := restructureScan filename
  if r.2.2 then [r.1.headD "", r.2.1]
  else existingParent ++ r.1 ++ [r.2.1]

/-! ### transpilex/utils/restructure.py : route map -/

/-- Python `part.rsplit(".", 1)`. -/
def rsplitLastDot (part : String) : String × String :=
  match lastIdxOf '.' part.data with
  | none => (part, "")
  | some i => (String.mk (part.data.take i), String.mk (part.data.drop (i + 1)))

/-- One path part transformed by `_apply_case_style` inside
`restructure_and_copy_files`: split the name from its extension at the last
dot, case the name, re-attach the extension unchanged. -/
def applyCaseStylePart (caseStyle part : String) : String :=
  let p := if strContains part '.' then rsplitLastDot part else (part, "")
  let newStem :=
    if caseStyle = "pascal" then apply_casing p.1 "pascal"
    else apply_casing p.1 "kebab"
  if p.2 = "" then newStem else newStem ++ "." ++ p.2

/-- `pathlib.Path.with_suffix` applied to the last segment of a relative
path: drop the existing suffix of the final name and append `newSuffix`
(which is either empty or starts with a dot). -/
def withSuffixSegs (segs : List String) (newSuffix : String) : List String :=
  match segs with
  | [] => []
  | _ => segs.dropLast ++ [(splitext (segs.getLastD "")).1 ++ newSuffix]

/-- The per-file route computation of `restructure_and_copy_files`
(`transpilex/utils/restructure.py` lines 159-184): restructure, apply the
on-disk case style, apply the target extension, then derive the route from
the destination path relative to `dest_path`.  `dest_root` itself is
abstracted away: we assume its own segments are unchanged by the case
style (e.g. lower-case single words), so `dest_file.relative_to(dest_path)`
yields exactly the cased relative segments. -/
def routeForFile (caseStyle : String) (ext : Option String)
    (existingParent : List String) (filename : String) : String :=
  let segs := getRestructuredSegs existingParent filename
  let cased := segs.map (applyCaseStylePart caseStyle)
  let withExt :=
    match ext with
    | some e => withSuffixSegs cased (if pyStartsWith e "." then e else "." ++ e)
    | none => cased
  let noExt := withSuffixSegs withExt ""
  let posix := String.intercalate "/" noExt
  let routeStem := apply_casing (removeSuffixStr posix ".blade") "kebab"
  "/" ++ lstripSlash routeStem

/-! ### Python values

Values produced by `json.loads` / `ast.literal_eval` and returned by the
`_parse_include_params` functions.  Numbers keep their decimal lexeme when
they are floats (float arithmetic is never performed on them by the code
under verification).  A mutual inductive is used so that decidable equality
can be derived. -/

mutual
inductive PyVal where
  | str (s : String)
  | int (n : Int)
  | float (lex : String)
  | bool (b : Bool)
  | pynone
  | dict (l : PyPairs)
  | list (l : PyItems)
  | set (l : PyItems)
  | tuple (l : PyItems)
  deriving DecidableEq
inductive PyItems where
  | nil
  | cons (v : PyVal) (t : PyItems)
  deriving DecidableEq
inductive PyPairs where
  | nil
  | cons (k v : PyVal) (t : PyPairs)
  deriving DecidableEq
end

def PyItems.ofList : List PyVal → PyItems
  | [] => .nil
  | v :: t => .cons v (PyItems.ofList t)

def PyPairs.ofList : List (PyVal × PyVal) → PyPairs
  | [] => .nil
  | (k, v) :: t => .cons k v (PyPairs.ofList t)

/-- Whether a Python value is a mapping (a `dict`). -/
def PyVal.isDict : PyVal → Bool
  | .dict _ => true
  | _ => false

/-- Python `d[k] = v` on an insertion-ordered association list: overwrite in
place if the key exists, else append. -/
def pyDictInsert (k v : PyVal) : List (PyVal × PyVal) → List (PyVal × PyVal)
  | [] => [(k, v)]
  | (k', v') :: t =>
    if k' = k then (k', v) :: t else (k', v') :: pyDictInsert k v t

/-- Build a Python dict from a pair list by sequential insertion
(later duplicate keys overwrite, keeping the first position). -/
def pyDictOfPairs (l : List (PyVal × PyVal)) : List (PyVal × PyVal) :=
  l.foldl (fun acc p => pyDictInsert p.1 p.2 acc) []

/-- The brace characters (written via codes so they never appear literally
in code or string literals). -/
def lbrace : Char := '\x7b'

def rbrace : Char := '\x7d'

def startsWithBrace (s : String) : Bool :=
  match s.data with
  | [] => false
  | c :: _ => c == lbrace

def endsWithBrace (s : String) : Bool :=
  match s.data.getLast? with
  | none => false
  | some c => c == rbrace

/-! ### Regex substitution scanners used by `_parse_include_params`

Each models one concrete `re.sub` pattern from the source as a left-to-right
scan: at each position the pattern is tried; on a match the replacement is
emitted and the scan resumes after the match, otherwise one character is
copied.  Fuel-recursive (fuel = input length suffices, one character is
consumed per step). -/

def identStartChar (c : Char) : Bool :=
  c.isAlpha || c == '_'

/-- Try the key-quoting pattern at the current position: a character of
`firstClass`, `\s*`, an identifier `[a-zA-Z_]` followed by `identChar`s,
`\s*`, then `:`.  Returns the `\1` capture, the identifier, and the total
match length. -/
def tryKeyMatch (firstClass identChar : Char → Bool) (cs : List Char) :
    Option (Char × String × Nat) :=
  match cs with
  | [] => none
  | c :: rest =>
    if firstClass c then
      let ws := rest.takeWhile pyIsSpace
      match rest.drop ws.length with
      | [] => none
      | i0 :: irest =>
        if identStartChar i0 then
          let identRest := irest.takeWhile identChar
          let ws2 := (irest.drop identRest.length).takeWhile pyIsSpace
          match (irest.drop identRest.length).drop ws2.length with
          | ':' :: _ =>
            some (c, String.mk (i0 :: identRest),
              1 + ws.length + 1 + identRest.length + ws2.length + 1)
          | _ => none
        else none
    else none

/-- Laravel `re.sub(r"([\{\s,])\s*([a-zA-Z_][\w-]*)\s*:", r'\1"\2":', raw)`. -/
def subQuoteKeysLAux : Nat → List Char → List Char
  | 0, cs => cs
  | _ + 1, [] => []
  | fuel + 1, c :: cs =>
    match tryKeyMatch (fun x => x == lbrace || pyIsSpace x || x == ',')
        (fun x => pyIsWord x || x == '-') (c :: cs) with
    | some (c1, ident, len) =>
      c1 :: '"' :: (ident.data ++ '"' :: ':' :: subQuoteKeysLAux fuel ((c :: cs).drop len))
    | none => c :: subQuoteKeysLAux fuel cs

def subQuoteKeysL (s : String) : String :=
  String.mk (subQuoteKeysLAux s.data.length s.data)

/-- Flask `re.sub(r"([{,])\s*([a-zA-Z_][\w]*)\s*:", r"\1 '\2':", s)`. -/
def subQuoteKeysFAux : Nat → List Char → List Char
  | 0, cs => cs
  | _ + 1, [] => []
  | fuel + 1, c :: cs =>
    match tryKeyMatch (fun x => x == lbrace || x == ',') pyIsWord (c :: cs) with
    | some (c1, ident, len) =>
      c1 :: ' ' :: '\'' :: (ident.data ++ '\'' :: ':' :: subQuoteKeysFAux fuel ((c :: cs).drop len))
    | none => c :: subQuoteKeysFAux fuel cs

def subQuoteKeysF (s : String) : String :=
  String.mk (subQuoteKeysFAux s.data.length s.data)

/-- Try the trailing-comma pattern `,\s*([\}\]])` at the current position. -/
def tryCommaMatch (cs : List Char) : Option (Char × Nat) :=
  match cs with
  | ',' :: rest =>
    let ws := rest.takeWhile pyIsSpace
    match rest.drop ws.length with
    | b :: _ =>
      if b == rbrace || b == ']' then some (b, 1 + ws.length + 1) else none
    | [] => none
  | _ => none

/-- `re.sub(r",\s*([\}\]])", r"\1", s)` (both converters). -/
def subTrailingCommasAux : Nat → List Char → List Char
  | 0, cs => cs
  | _ + 1, [] => []
  | fuel + 1, c :: cs =>
    match tryCommaMatch (c :: cs) with
    | some (b, len) => b :: subTrailingCommasAux fuel ((c :: cs).drop len)
    | none => c :: subTrailingCommasAux fuel cs

def subTrailingCommas (s : String) : String :=
  String.mk (subTrailingCommasAux s.data.length s.data)

/-- Flask `re.sub(r"\s{2,}", " ", s)`: each run of two or more whitespace
characters becomes a single space. -/
def collapseWsAux : Nat → List Char → List Char
  | 0, cs => cs
  | _ + 1, [] => []
  | fuel + 1, c :: cs =>
    if pyIsSpace c then
      let ws := cs.takeWhile pyIsSpace
      if ws.length ≥ 1 then ' ' :: collapseWsAux fuel (cs.drop ws.length)
      else c :: collapseWsAux fuel cs
    else c :: collapseWsAux fuel cs

def collapseWs (s : String) : String :=
  String.mk (collapseWsAux s.data.length s.data)

/-! ### html.unescape (stdlib boundary)

Model of the Python `html.unescape` call in the Laravel
`_parse_include_params`: a single left-to-right pass replacing the common
named entities and numeric character references; unknown entities are left
untouched.  (The stdlib knows the full HTML5 entity table; the converter
only ever meets `&gt;`, `&lt;`, `&amp;`, `&quot;` and `&#39;` coming from
HTML-escaped template text.) -/

def hexVal (c : Char) : Option Nat :=
  if c.isDigit then some (c.toNat - '0'.toNat)
  else if 'a' ≤ c ∧ c ≤ 'f' then some (c.toNat - 'a'.toNat + 10)
  else if 'A' ≤ c ∧ c ≤ 'F' then some (c.toNat - 'A'.toNat + 10)
  else none

def decDigitsVal (l : List Char) : Nat :=
  l.foldl (fun acc c => acc * 10 + (c.toNat - '0'.toNat)) 0

def tryEntity (cs : List Char) : Option (Char × Nat) :=
  if listIsInit "&amp;".data cs then some ('&', 5)
  else if listIsInit "&lt;".data cs then some ('<', 4)
  else if listIsInit "&gt;".data cs then some ('>', 4)
  else if listIsInit "&quot;".data cs then some ('"', 6)
  else if listIsInit "&apos;".data cs then some ('\'', 6)
  else if listIsInit "&#".data cs then
    let digits := (cs.drop 2).takeWhile Char.isDigit
    match (cs.drop 2).drop digits.length with
    | ';' :: _ =>
      if digits.length ≥ 1 then
        some (Char.ofNat (decDigitsVal digits), 2 + digits.length + 1)
      else none
    | _ => none
  else none

def htmlUnescapeAux : Nat → List Char → List Char
  | 0, cs => cs
  | _ + 1, [] => []
  | fuel + 1, c :: cs =>
    match tryEntity (c :: cs) with
    | some (r, len) => r :: htmlUnescapeAux fuel ((c :: cs).drop len)
    | none => c :: htmlUnescapeAux fuel cs

def htmlUnescape (s : String) : String :=
  String.mk (htmlUnescapeAux s.data.length s.data)

/-! ### json.loads (stdlib boundary)

An executable model of Python `json.loads` as used by the Laravel
`_parse_include_params`: a recursive-descent parser for RFC JSON plus
Python's default `NaN`/`Infinity` extensions, failing (`none`, standing for
`json.JSONDecodeError`) on anything else.  Floats keep their lexeme. -/

def jsonWsChar (c : Char) : Bool :=
  c == ' ' || c == '\t' || c == '\n' || c == '\r'

def skipJsonWs (cs : List Char) : List Char :=
  cs.dropWhile jsonWsChar

/-- JSON string body, after the opening quote. -/
def jsonStringAux : List Char → List Char → Option (String × List Char)
  | [], _ => none
  | '"' :: rest, acc => some (String.mk acc.reverse, rest)
  | '\\' :: rest, acc =>
    match rest with
    | [] => none
    | e :: rest2 =>
      if e == '"' then jsonStringAux rest2 ('"' :: acc)
      else if e == '\\' then jsonStringAux rest2 ('\\' :: acc)
      else if e == '/' then jsonStringAux rest2 ('/' :: acc)
      else if e == 'n' then jsonStringAux rest2 ('\n' :: acc)
      else if e == 't' then jsonStringAux rest2 ('\t' :: acc)
      else if e == 'r' then jsonStringAux rest2 ('\r' :: acc)
      else if e == 'b' then jsonStringAux rest2 ('\x08' :: acc)
      else if e == 'f' then jsonStringAux rest2 ('\x0c' :: acc)
      else if e == 'u' then
        match rest2 with
        | h1 :: h2 :: h3 :: h4 :: rest3 =>
          match hexVal h1, hexVal h2, hexVal h3, hexVal h4 with
          | some a, some b, some c, some d =>
            jsonStringAux rest3 (Char.ofNat (((a * 16 + b) * 16 + c) * 16 + d) :: acc)
          | _, _, _, _ => none
        | _ => none
      else none
  | c :: rest, acc => jsonStringAux rest (c :: acc)

/-- A JSON number: `-? (0 | [1-9][0-9]*) frac? exp?`.  Integers (no
fraction, no exponent) become `PyVal.int`; anything else keeps its lexeme
as a `PyVal.float`. -/
def jsonNumber (cs : List Char) : Option (PyVal × List Char) :=
  let neg := match cs with
    | '-' :: _ => true
    | _ => false
  let cs1 := if neg then cs.drop 1 else cs
  let intDigits := cs1.takeWhile Char.isDigit
  if intDigits = [] then none
  else if intDigits.length ≥ 2 ∧ intDigits.headD '0' == '0' then none
  else
    let r1 := cs1.drop intDigits.length
    let fracDigits := match r1 with
      | '.' :: t => t.takeWhile Char.isDigit
      | _ => []
    let hasFrac := match r1 with
      | '.' :: _ => true
      | _ => false
    if hasFrac = true ∧ fracDigits = [] then none
    else
      let r2 := if hasFrac = true then (r1.drop 1).drop fracDigits.length else r1
      let hasExp := match r2 with
        | 'e' :: _ => true
        | 'E' :: _ => true
        | _ => false
      if hasExp then
        let r3 := r2.drop 1
        let expSign := match r3 with
          | '+' :: _ => true
          | '-' :: _ => true
          | _ => false
        let r4 := if expSign then r3.drop 1 else r3
        let expDigits := r4.takeWhile Char.isDigit
        if expDigits = [] then none
        else
          let consumed := cs.length - (r4.drop expDigits.length).length
          some (.float (String.mk (cs.take consumed)), r4.drop expDigits.length)
      else if hasFrac = true then
        let consumed := cs.length - r2.length
        some (.float (String.mk (cs.take consumed)), r2)
      else
        let v : Int := Int.ofNat (decDigitsVal intDigits)
        some (.int (if neg then -v else v), r1)

mutual

/-- A JSON value (whitespace-tolerant). -/
def jsonValue : Nat → List Char → Option (PyVal × List Char)
  | 0, _ => none
  | fuel + 1, cs0 =>
    let cs := skipJsonWs cs0
    match cs with
    | [] => none
    | c :: rest =>
      if c == lbrace then
        match skipJsonWs rest with
        | d :: r2 =>
          if d == rbrace then some (.dict .nil, r2)
          else
            match jsonMembers fuel rest with
            | none => none
            | some (l, r) => some (.dict (PyPairs.ofList (pyDictOfPairs l)), r)
        | [] => none
      else if c == '[' then
        match skipJsonWs rest with
        | ']' :: r2 => some (.list .nil, r2)
        | _ =>
          match jsonElements fuel rest with
          | none => none
          | some (l, r) => some (.list (PyItems.ofList l), r)
      else if c == '"' then
        match jsonStringAux rest [] with
        | none => none
        | some (s, r) => some (.str s, r)
      else if listIsInit "true".data cs then some (.bool true, cs.drop 4)
      else if listIsInit "false".data cs then some (.bool false, cs.drop 5)
      else if listIsInit "null".data cs then some (.pynone, cs.drop 4)
      else if listIsInit "NaN".data cs then some (.float "nan", cs.drop 3)
      else if listIsInit "Infinity".data cs then some (.float "inf", cs.drop 8)
      else if listIsInit "-Infinity".data cs then some (.float "-inf", cs.drop 9)
      else jsonNumber cs

/-- Members of a JSON object, from after the opening brace up to and
including the closing brace. -/
def jsonMembers : Nat → List Char → Option (List (PyVal × PyVal) × List Char)
  | 0, _ => none
  | fuel + 1, cs =>
    match skipJsonWs cs with
    | '"' :: rest =>
      match jsonStringAux rest [] with
      | none => none
      | some (k, r1) =>
        match skipJsonWs r1 with
        | ':' :: r2 =>
          match jsonValue fuel r2 with
          | none => none
          | some (v, r3) =>
            match skipJsonWs r3 with
            | ',' :: r4 =>
              match jsonMembers fuel r4 with
              | none => none
              | some (l, r5) => some ((PyVal.str k, v) :: l, r5)
            | d :: r4 =>
              if d == rbrace then some ([(PyVal.str k, v)], r4) else none
            | [] => none
        | _ => none
    | _ => none

/-- Elements of a JSON array, from after the opening bracket up to and
including the closing bracket. -/
def jsonElements : Nat → List Char → Option (List PyVal × List Char)
  | 0, _ => none
  | fuel + 1, cs =>
    match jsonValue fuel cs with
    | none => none
    | some (v, r1) =>
      match skipJsonWs r1 with
      | ',' :: r2 =>
        match jsonElements fuel r2 with
        | none => none
        | some (l, r3) => some (v :: l, r3)
      | ']' :: r2 => some ([v], r2)
      | _ => none

end

/-- Python `json.loads`: a complete JSON document with only whitespace
around it. -/
def jsonLoads (s : String) : Option PyVal :=
  match jsonValue (s.data.length + 1) s.data with
  | none => none
  | some (v, rest) => if skipJsonWs rest = [] then some v else none

/-! ### ast.literal_eval (stdlib boundary)

An executable model of Python `ast.literal_eval` as used by the Flask
`_parse_include_params`: Python literal syntax for strings (single or
double quoted, common escapes), integers, floats, `True`/`False`/`None`,
lists, tuples, sets and dicts.  `none` stands for any exception raised by
the stdlib function. -/

/-- Python string-literal body, after the opening quote `q`.  Unknown
escape sequences keep the backslash, as in Python. -/
def pyLitString (q : Char) : List Char → List Char → Option (String × List Char)
  | [], _ => none
  | c :: rest, acc =>
    if c == q then some (String.mk acc.reverse, rest)
    else if c == '\\' then
      match rest with
      | [] => none
      | e :: rest2 =>
        if e == 'n' then pyLitString q rest2 ('\n' :: acc)
        else if e == 't' then pyLitString q rest2 ('\t' :: acc)
        else if e == 'r' then pyLitString q rest2 ('\r' :: acc)
        else if e == '\\' then pyLitString q rest2 ('\\' :: acc)
        else if e == '\'' then pyLitString q rest2 ('\'' :: acc)
        else if e == '"' then pyLitString q rest2 ('"' :: acc)
        else if e == '0' then pyLitString q rest2 ('\x00' :: acc)
        else if e == 'x' then
          match rest2 with
          | h1 :: h2 :: rest3 =>
            match hexVal h1, hexVal h2 with
            | some a, some b => pyLitString q rest3 (Char.ofNat (a * 16 + b) :: acc)
            | _, _ => none
          | _ => none
        else pyLitString q rest2 (e :: '\\' :: acc)
    else pyLitString q rest (c :: acc)

/-- A Python number literal with an optional single leading sign.  Integer
literals reject a leading zero followed by a nonzero digit, as Python
does; float literals do not. -/
def pyLitNumber (cs : List Char) : Option (PyVal × List Char) :=
  let sign := match cs with
    | '-' :: _ => true
    | '+' :: _ => true
    | _ => false
  let neg := match cs with
    | '-' :: _ => true
    | _ => false
  let cs1 := if sign then (cs.drop 1).dropWhile pyIsSpace else cs
  let intDigits := cs1.takeWhile Char.isDigit
  if intDigits = [] then none
  else
    let r1 := cs1.drop intDigits.length
    let hasFrac := match r1 with
      | '.' :: _ => true
      | _ => false
    if hasFrac then
      let fracDigits := (r1.drop 1).takeWhile Char.isDigit
      let r2 := (r1.drop 1).drop fracDigits.length
      let lex := (if neg then "-" else "") ++
        String.mk (intDigits ++ '.' :: fracDigits)
      some (.float lex, r2)
    else if intDigits.headD '0' == '0' ∧ intDigits.any (fun d => d ≠ '0') then
      none
    else
      let v : Int := Int.ofNat (decDigitsVal intDigits)
      some (.int (if neg then -v else v), r1)

mutual

/-- A Python literal expression (whitespace-tolerant). -/
def pyLitValue : Nat → List Char → Option (PyVal × List Char)
  | 0, _ => none
  | fuel + 1, cs0 =>
    let cs := cs0.dropWhile pyIsSpace
    match cs with
    | [] => none
    | c :: rest =>
      if c == lbrace then
        match rest.dropWhile pyIsSpace with
        | d :: r2 =>
          if d == rbrace then some (.dict .nil, r2)
          else
            match pyLitValue fuel rest with
            | none => none
            | some (v1, r3) =>
              match r3.dropWhile pyIsSpace with
              | ':' :: r4 =>
                match pyLitValue fuel r4 with
                | none => none
                | some (w1, r5) =>
                  match pyLitDictRest fuel r5 with
                  | none => none
                  | some (l, r6) =>
                    some (.dict (PyPairs.ofList (pyDictOfPairs ((v1, w1) :: l))), r6)
              | ',' :: r4 =>
                match pyLitItemsRest fuel false r4 with
                | none => none
                | some (l, r5) => some (.set (PyItems.ofList (v1 :: l)), r5)
              | d2 :: r4 =>
                if d2 == rbrace then some (.set (PyItems.ofList [v1]), r4) else none
              | [] => none
        | [] => none
      else if c == '[' then
        match rest.dropWhile pyIsSpace with
        | ']' :: r2 => some (.list .nil, r2)
        | _ =>
          match pyLitValue fuel rest with
          | none => none
          | some (v1, r3) =>
            match r3.dropWhile pyIsSpace with
            | ',' :: r4 =>
              match pyLitItemsRest fuel true r4 with
              | none => none
              | some (l, r5) => some (.list (PyItems.ofList (v1 :: l)), r5)
            | ']' :: r4 => some (.list (PyItems.ofList [v1]), r4)
            | _ => none
      else if c == '(' then
        match rest.dropWhile pyIsSpace with
        | ')' :: r2 => some (.tuple .nil, r2)
        | _ =>
          match pyLitValue fuel rest with
          | none => none
          | some (v1, r3) =>
            match r3.dropWhile pyIsSpace with
            | ')' :: r4 => some (v1, r4)
            | ',' :: r4 =>
              match pyLitTupleRest fuel r4 with
              | none => none
              | some (l, r5) => some (.tuple (PyItems.ofList (v1 :: l)), r5)
            | _ => none
      else if c == '\'' then
        match pyLitString '\'' rest [] with
        | none => none
        | some (s, r) => some (.str s, r)
      else if c == '"' then
        match pyLitString '"' rest [] with
        | none => none
        | some (s, r) => some (.str s, r)
      else if listIsInit "True".data cs then some (.bool true, cs.drop 4)
      else if listIsInit "False".data cs then some (.bool false, cs.drop 5)
      else if listIsInit "None".data cs then some (.pynone, cs.drop 4)
      else pyLitNumber cs

/-- Remaining `key : value` pairs of a dict literal (from a position right
after a value), through the closing brace; tolerates a trailing comma. -/
def pyLitDictRest : Nat → List Char → Option (List (PyVal × PyVal) × List Char)
  | 0, _ => none
  | fuel + 1, cs =>
    match cs.dropWhile pyIsSpace with
    | ',' :: r =>
      match r.dropWhile pyIsSpace with
      | d :: _ =>
        if d == rbrace then some ([], (r.dropWhile pyIsSpace).drop 1)
        else
          match pyLitValue fuel r with
          | none => none
          | some (k, r3) =>
            match r3.dropWhile pyIsSpace with
            | ':' :: r4 =>
              match pyLitValue fuel r4 with
              | none => none
              | some (v, r5) =>
                match pyLitDictRest fuel r5 with
                | none => none
                | some (l, r6) => some ((k, v) :: l, r6)
            | _ => none
      | [] => none
    | d :: r =>
      if d == rbrace then some ([], r) else none
    | [] => none

/-- Remaining elements of a list (`sq = true`, closer `]`) or set
(`sq = false`, closer the brace) literal, from a position right after a
comma; tolerates a trailing comma. -/
def pyLitItemsRest : Nat → Bool → List Char → Option (List PyVal × List Char)
  | 0, _, _ => none
  | fuel + 1, sq, cs =>
    let closes : Char → Bool := fun d => if sq then d == ']' else d == rbrace
    match cs.dropWhile pyIsSpace with
    | d :: r =>
      if closes d then some ([], r)
      else
        match pyLitValue fuel cs with
        | none => none
        | some (v, r2) =>
          match r2.dropWhile pyIsSpace with
          | ',' :: r3 =>
            match pyLitItemsRest fuel sq r3 with
            | none => none
            | some (l, r4) => some (v :: l, r4)
          | d2 :: r3 =>
            if closes d2 then some ([v], r3) else none
          | [] => none
    | [] => none

/-- Remaining elements of a tuple literal, from a position right after a
comma; tolerates a trailing comma. -/
def pyLitTupleRest : Nat → List Char → Option (List PyVal × List Char)
  | 0, _ => none
  | fuel + 1, cs =>
    match cs.dropWhile pyIsSpace with
    | ')' :: r => some ([], r)
    | [] => none
    | _ =>
      match pyLitValue fuel cs with
      | none => none
      | some (v, r2) =>
        match r2.dropWhile pyIsSpace with
        | ',' :: r3 =>
          match pyLitTupleRest fuel r3 with
          | none => none
          | some (l, r4) => some (v :: l, r4)
        | ')' :: r3 => some ([v], r3)
        | _ => none

end

/-- Python `ast.literal_eval`: a complete literal with only whitespace
around it. -/
def literalEval (s : String) : Option PyVal :=
  match pyLitValue (s.data.length + 1) s.data with
  | none => none
  | some (v, rest) => if rest.dropWhile pyIsSpace = [] then some v else none

/-! ### The findall / search scanners of `_parse_include_params`

Each models one concrete `re.findall` / `re.search` / `re.finditer` call
from the source.  `findallAux` is the generic left-to-right scan: try the
pattern at each position; on a match, emit it and resume after it (all the
patterns below match at least one character). -/

def findallAux {α : Type} (tryFn : List Char → Option (α × Nat)) :
    Nat → List Char → List α
  | 0, _ => []
  | _ + 1, [] => []
  | fuel + 1, c :: cs =>
    match tryFn (c :: cs) with
    | some (a, len) => a :: findallAux tryFn fuel ((c :: cs).drop len)
    | none => findallAux tryFn fuel cs

def quoteChar (c : Char) : Bool :=
  c == '\'' || c == '"'

/-- Parse an integer lexeme `-?\d+`. -/
def parseIntStr (s : String) : Int :=
  match s.data with
  | '-' :: t => -(Int.ofNat (decDigitsVal t))
  | t => Int.ofNat (decDigitsVal t)

/-- Python `float(n) if "." in n else int(n)` (floats keep their lexeme). -/
def parseNumGroup (n : String) : PyVal :=
  if strContains n '.' then .float n else .int (parseIntStr n)

/-- A number lexeme `-?\d+(?:\.\d+)?` at the head of the input. -/
def tryNumberLex (cs : List Char) : Option (String × Nat) :=
  let neg := match cs with
    | '-' :: _ => true
    | _ => false
  let cs1 := if neg then cs.drop 1 else cs
  let intDigits := cs1.takeWhile Char.isDigit
  if intDigits = [] then none
  else
    let fracDigits := match cs1.drop intDigits.length with
      | '.' :: t =>
        let f := t.takeWhile Char.isDigit
        if f = [] then [] else '.' :: f
      | _ => []
    let len := (if neg then 1 else 0) + intDigits.length + fracDigits.length
    some (String.mk (cs.take len), len)

/-- One match of the Blade-array pair pattern
`['\"](?P<key>[^'\"]+)['\"]\s*=>\s*(['\"](?P<val>[^'\"]*)['\"]|(?P<bool>true|false)|(?P<num>-?\d+(?:\.\d+)?))`
at the head of the input: returns `(key, val, bool, num)` (empty string for
a group that did not match) and the match length. -/
def tryBladeMatch (cs : List Char) :
    Option ((String × String × String × String) × Nat) :=
  match cs with
  | [] => none
  | q1 :: rest =>
    if quoteChar q1 then
      let key := rest.takeWhile (fun c => ¬ quoteChar c)
      if key = [] then none
      else
        match rest.drop key.length with
        | _ :: rest2 =>
          let ws1 := rest2.takeWhile pyIsSpace
          match rest2.drop ws1.length with
          | '=' :: '>' :: rest3 =>
            let ws2 := rest3.takeWhile pyIsSpace
            let restV := rest3.drop ws2.length
            let pre := 1 + key.length + 1 + ws1.length + 2 + ws2.length
            match restV with
            | q3 :: restS =>
              if quoteChar q3 then
                let v := restS.takeWhile (fun c => ¬ quoteChar c)
                match restS.drop v.length with
                | _ :: _ =>
                  some ((String.mk key, String.mk v, "", ""),
                    pre + 1 + v.length + 1)
                | [] => none
              else if listIsInit "true".data restV then
                some ((String.mk key, "", "true", ""), pre + 4)
              else if listIsInit "false".data restV then
                some ((String.mk key, "", "false", ""), pre + 5)
              else
                match tryNumberLex restV with
                | some (n, ln) => some ((String.mk key, "", "", n), pre + ln)
                | none => none
            | [] => none
          | _ => none
        | [] => none
    else none

/-- One match of the Laravel key=value pattern `(\w+)=[\"']([^\"']+)[\"']`
at the head of the input. -/
def tryKvMatchL (cs : List Char) : Option ((String × String) × Nat) :=
  let w := cs.takeWhile pyIsWord
  if w = [] then none
  else
    match cs.drop w.length with
    | '=' :: rest2 =>
      match rest2 with
      | q1 :: rest3 =>
        if quoteChar q1 then
          let v := rest3.takeWhile (fun c => ¬ quoteChar c)
          if v = [] then none
          else
            match rest3.drop v.length with
            | _ :: _ => some ((String.mk w, String.mk v), w.length + 2 + v.length + 1)
            | [] => none
        else none
      | [] => none
    | _ => none

/-- One match of the Flask key=value pattern
`(\w+)\s*=\s*[\"']([^\"']+)[\"']` (whitespace allowed around `=`) at the
head of the input. -/
def tryKvMatchF (cs : List Char) : Option ((String × String) × Nat) :=
  let w := cs.takeWhile pyIsWord
  if w = [] then none
  else
    let ws1 := (cs.drop w.length).takeWhile pyIsSpace
    match (cs.drop w.length).drop ws1.length with
    | '=' :: rest2 =>
      let ws2 := rest2.takeWhile pyIsSpace
      match rest2.drop ws2.length with
      | q1 :: rest3 =>
        if quoteChar q1 then
          let v := rest3.takeWhile (fun c => ¬ quoteChar c)
          if v = [] then none
          else
            match rest3.drop v.length with
            | _ :: _ =>
              some ((String.mk w, String.mk v),
                w.length + ws1.length + 1 + ws2.length + 1 + v.length + 1)
            | [] => none
        else none
      | [] => none
    | _ => none

/-- `re.search(r"array\s*\(([\s\S]*)\)", s)`: the greedy group captures
from the first `array` + `(` up to the last `)` of the input. -/
def tryArrayMatch (cs : List Char) : Option String :=
  if listIsInit "array".data cs then
    let rest := cs.drop 5
    let ws := rest.takeWhile pyIsSpace
    match rest.drop ws.length with
    | '(' :: body =>
      match lastIdxOf ')' body with
      | some j => some (String.mk (body.take j))
      | none => none
    | _ => none
  else none

def pyArraySearchAux : Nat → List Char → Option String
  | 0, _ => none
  | _ + 1, [] => none
  | fuel + 1, c :: cs =>
    match tryArrayMatch (c :: cs) with
    | some b => some b
    | none => pyArraySearchAux fuel cs

def pyArraySearch (s : String) : Option String :=
  pyArraySearchAux s.data.length s.data

/-- The string-value body of the PHP-array parameter pattern,
`(?:\\.|[^'\"])*` with `re.DOTALL`: consume escape pairs verbatim and any
non-quote characters, stopping at the first unescaped quote.  The capture
keeps the raw text (the code never unescapes it). -/
def phpSvalAux : Nat → List Char → List Char × List Char
  | 0, cs => ([], cs)
  | _ + 1, [] => ([], [])
  | fuel + 1, '\\' :: c :: rest =>
    let r := phpSvalAux fuel rest
    ('\\' :: c :: r.1, r.2)
  | fuel + 1, c :: rest =>
    if quoteChar c then ([], c :: rest)
    else
      let r := phpSvalAux fuel rest
      (c :: r.1, r.2)

/-- The value-and-tail part of the PHP-array parameter pattern: one of a
quoted string (`sval`), a number (`nval`) or a boolean (`bool`), followed
by `\s*(?:,\s*|$)`.  Returns the group values and the consumed length. -/
def tryPhpValueTail (cs : List Char) (total : Nat) :
    Option ((String × String × String) × Nat) :=
  let afterValue : Option ((String × String × String) × List Char) :=
    match cs with
    | q :: rest =>
      if quoteChar q then
        let r := phpSvalAux rest.length rest
        match r.2 with
        | _ :: rest2 => some ((String.mk r.1, "", ""), rest2)
        | [] => none
      else if listIsInit "true".data cs then some (("", "", "true"), cs.drop 4)
      else if listIsInit "false".data cs then some (("", "", "false"), cs.drop 5)
      else
        match tryNumberLex cs with
        | some (n, ln) => some (("", n, ""), cs.drop ln)
        | none => none
    | [] => none
  match afterValue with
  | none => none
  | some (groups, rest) =>
    let ws := rest.takeWhile pyIsSpace
    match rest.drop ws.length with
    | ',' :: rest2 =>
      let ws2 := rest2.takeWhile pyIsSpace
      some (groups, total - (rest2.drop ws2.length).length)
    | [] => some (groups, total - 0)
    | _ => none

/-- One match of the PHP-array parameter pattern (with the optional
`['\"]key['\"]\s*=>\s*` part tried first, as the regex engine does) at the
head of the input: returns `(key, sval, nval, bool)` and the length. -/
def tryPhpParamMatch (cs : List Char) :
    Option ((String × String × String × String) × Nat) :=
  let withKey : Option ((String × String × String × String) × Nat) :=
    match cs with
    | q1 :: rest =>
      if quoteChar q1 then
        let key := rest.takeWhile (fun c => ¬ quoteChar c)
        if key = [] then none
        else
          match rest.drop key.length with
          | _ :: rest2 =>
            let ws1 := rest2.takeWhile pyIsSpace
            match rest2.drop ws1.length with
            | '=' :: '>' :: rest3 =>
              let ws2 := rest3.takeWhile pyIsSpace
              let restV := rest3.drop ws2.length
              match tryPhpValueTail restV restV.length with
              | some (g, consumed) =>
                some ((String.mk key, g),
                  1 + key.length + 1 + ws1.length + 2 + ws2.length + consumed)
              | none => none
            | _ => none
          | [] => none
      else none
    | [] => none
  match withKey with
  | some m => some m
  | none =>
    match tryPhpValueTail cs cs.length with
    | some (g, consumed) => some (("", g), consumed)
    | none => none

/-! ### _parse_include_params (laravel.py lines 233-303) -/

/-- A pair to insert for one Blade-array match, following the source's
`if v: ... elif b: ... elif n: ...` (empty captures are falsy). -/
def bladePairOf (m : String × String × String × String) :
    Option (PyVal × PyVal) :=
  let k := m.1
  let v := m.2.1
  let b := m.2.2.1
  let n := m.2.2.2
  if v ≠ "" then some (.str k, .str v)
  else if b ≠ "" then some (.str k, .bool (b = "true"))
  else if n ≠ "" then some (.str k, parseNumGroup n)
  else none

/-- A pair to insert for one PHP-array match, following the source's
`if not key: continue; if sval: ... elif nval: ... elif bool: ...`. -/
def phpPairOf (m : String × String × String × String) :
    Option (PyVal × PyVal) :=
  let key := m.1
  let sval := m.2.1
  let nval := m.2.2.1
  let b := m.2.2.2
  if key = "" then none
  else if sval ≠ "" then some (.str key, .str sval)
  else if nval ≠ "" then some (.str key, parseNumGroup nval)
  else if b ≠ "" then some (.str key, .bool (b = "true"))
  else none

/-- `LaravelConverter._extract_php_array_params`. -/
def laravelExtractPhpArrayParams (includeStr : String) : PyVal :=
  match pyArraySearch includeStr with
  | none => .dict .nil
  | some body =>
    .dict (PyPairs.ofList (pyDictOfPairs
      ((findallAux tryPhpParamMatch body.data.length body.data).filterMap phpPairOf)))

/-- The post-JSON grammars of `LaravelConverter._parse_include_params`
(laravel.py lines 248-273), reached when the JSON branch does not return:
PHP `array(...)` syntax, then Blade `['k' => v]` pairs, then bare
`key="value"` pairs, else the empty dict. -/
def laravelParamsFallback (r : String) : PyVal :=
  match pyArraySearch r with
  | some body => laravelExtractPhpArrayParams ("array(" ++ body ++ ")")
  | none =>
    if findallAux tryBladeMatch r.data.length r.data ≠ [] then
      .dict (PyPairs.ofList (pyDictOfPairs
        ((findallAux tryBladeMatch r.data.length r.data).filterMap bladePairOf)))
    else if findallAux tryKvMatchL r.data.length r.data ≠ [] then
      .dict (PyPairs.ofList (pyDictOfPairs
        ((findallAux tryKvMatchL r.data.length r.data).map
          (fun q => (PyVal.str q.1, PyVal.str q.2)))))
    else .dict .nil

/-- `LaravelConverter._parse_include_params` (laravel.py lines 233-273):
JSON-object syntax (after key quoting and trailing-comma stripping), then
the fallback grammars.  `html.unescape(raw.strip())` is applied first; a
`json.loads` failure falls through to the next grammar. -/
def laravelParseIncludeParams (raw : String) : PyVal :=
  if raw = "" then .dict .nil
  else
    let r := htmlUnescape (pyStrip raw)
    let jsonTry : Option PyVal :=
      if startsWithBrace r && endsWithBrace r then
        jsonLoads (subTrailingCommas (subQuoteKeysL r))
      else none
    match jsonTry with
    | some v => v
    | none => laravelParamsFallback r

/-! ### _parse_include_params (flask.py lines 246-277) -/

/-- `BaseFlaskConverter._parse_include_params`: if the stripped input is
brace-delimited, quote unquoted keys, rewrite `true`/`false`/`null` to
Python spelling, strip trailing commas, collapse whitespace runs, and hand
the result to `ast.literal_eval` (any failure yields the empty dict, with
no fallthrough); otherwise collect bare `key="value"` pairs. -/
def flaskParseIncludeParams (params0 : String) : PyVal :=
  if pyStrip params0 = "" then .dict .nil
  else if startsWithBrace (pyStrip params0) && endsWithBrace (pyStrip params0) then
    match literalEval (collapseWs (subTrailingCommas
        (pyReplace (pyReplace (pyReplace (subQuoteKeysF (pyStrip params0))
          "true" "True") "false" "False") "null" "None"))) with
    | some v => v
    | none => .dict .nil
  else
    .dict (PyPairs.ofList (pyDictOfPairs
      ((findallAux tryKvMatchF (pyStrip params0).data.length (pyStrip params0).data).map
        (fun q => (PyVal.str q.1, PyVal.str q.2)))))

/-! ### Include fragments and their extraction

One recognized include directive in template text. -/

structure Fragment where
  full : String
  path : String
  params : String
  deriving DecidableEq

/-- Modelled from the spec: the include-pattern registry
(`transpilex/patterns/import_patterns.json`) is not under `src/`; spec
sections 3 and 4.2 describe it as named regexes with groups `path` and
`params` for the `\x7b\x7b> path params\x7d\x7d` Handlebars form and the
`@@include('path', params)` form.  This matcher implements the Handlebars
pattern `\{\{\s*\>\s*(?P<path>[^\s\}]+)\s*(?P<params>[^\}]*)\}\}` (brace
characters written as escapes here); `alt` selects the derived pattern in
which the rewriters replace the literal `\>\s*` source text with
`(?:>|&gt;)\s*` (laravel.py line 326, flask.py lines 197-200), tolerating
HTML-entity-escaped input. -/
def hbsTryMatch (alt : Bool) (cs : List Char) :
    Option ((String × String × String) × Nat) :=
  match cs with
  | c1 :: c2 :: rest =>
    if c1 == lbrace && c2 == lbrace then
      let ws0 := rest.takeWhile pyIsSpace
      let r1 := rest.drop ws0.length
      let gtLen : Option Nat :=
        match r1 with
        | '>' :: _ => some 1
        | _ => if alt && listIsInit "&gt;".data r1 then some 4 else none
      match gtLen with
      | none => none
      | some g =>
        let r2 := r1.drop g
        let ws1 := r2.takeWhile pyIsSpace
        let r3 := r2.drop ws1.length
        let path := r3.takeWhile (fun c => ¬ (pyIsSpace c || c == rbrace))
        if path = [] then none
        else
          let r4 := r3.drop path.length
          let ws2 := r4.takeWhile pyIsSpace
          let r5 := r4.drop ws2.length
          let params := r5.takeWhile (fun c => ¬ c == rbrace)
          match r5.drop params.length with
          | d1 :: d2 :: _ =>
            if d1 == rbrace && d2 == rbrace then
              let len := 2 + ws0.length + g + ws1.length + path.length +
                ws2.length + params.length + 2
              some ((String.mk (cs.take len), String.mk path, String.mk params), len)
            else none
          | _ => none
    else none
  | _ => none

/-- Modelled from the spec: the `@@include` entry of the registry,
`@@include\(\s*['"](?P<path>[^'"]+)['"]\s*(?:,(?P<params>[^)]*))?\s*\)`.
The escaped-form derivation leaves it unchanged (its source contains no
`\>\s*`).  An absent `params` group is modelled as the empty string (both
converters treat `None` and `""` alike). -/
def atTryMatch (cs : List Char) : Option ((String × String × String) × Nat) :=
  if listIsInit "@@include(".data cs then
    let rest := cs.drop 10
    let ws := rest.takeWhile pyIsSpace
    match rest.drop ws.length with
    | q :: r2 =>
      if quoteChar q then
        let path := r2.takeWhile (fun c => ¬ quoteChar c)
        if path = [] then none
        else
          match r2.drop path.length with
          | _ :: r3 =>
            let ws2 := r3.takeWhile pyIsSpace
            let pre := 10 + ws.length + 1 + path.length + 1 + ws2.length
            match r3.drop ws2.length with
            | ',' :: r4 =>
              let params := r4.takeWhile (fun c => ¬ c == ')')
              match r4.drop params.length with
              | ')' :: _ =>
                let len := pre + 1 + params.length + 1
                some ((String.mk (cs.take len), String.mk path, String.mk params), len)
              | _ => none
            | ')' :: _ =>
              let len := pre + 1
              some ((String.mk (cs.take len), String.mk path, ""), len)
            | _ => none
          | [] => none
      else none
    | [] => none
  else none

/-- The fragment-collection loop shared by
`_replace_all_includes_with_blade` (laravel.py lines 323-333) and
`_replace_all_includes_with_flask` (flask.py lines 186-207): for every
registry entry, scan the text with the escaped-form-derived pattern and
collect `(full match, path, params)`. -/
def extractFragments (text : String) : List Fragment :=
  ((findallAux (hbsTryMatch true) text.data.length text.data).map
    (fun m => Fragment.mk m.1 m.2.1 m.2.2)) ++
  ((findallAux atTryMatch text.data.length text.data).map
    (fun m => Fragment.mk m.1 m.2.1 m.2.2))

/-! ### _replace_all_includes_with_blade (laravel.py lines 318-370) -/

/-- `re.sub(r"^(\.\/|\.\.\/)+", "", path)`: remove the leading run of `./`
and `../` segments. -/
def stripLeadingDotSegs : Nat → List Char → List Char
  | 0, cs => cs
  | fuel + 1, cs =>
    if listIsInit "./".data cs then stripLeadingDotSegs fuel (cs.drop 2)
    else if listIsInit "../".data cs then stripLeadingDotSegs fuel (cs.drop 3)
    else cs

def stripLeadingDots (s : String) : String :=
  String.mk (stripLeadingDotSegs s.data.length s.data)

/-- `Path(p).with_suffix("").as_posix()`: drop the extension of the final
path segment. -/
def pathDropSuffix (p : String) : String :=
  String.intercalate "/" (withSuffixSegs (splitCharAux '/' p.data []) "")

/-- `Path(p).name`: the text after the last slash. -/
def pathName (s : String) : String :=
  match lastIdxOf '/' s.data with
  | none => s
  | some i => String.mk (s.data.drop (i + 1))

/-- The path normalization of `_replace_all_includes_with_blade`
(laravel.py lines 339-354): strip leading dot segments, drop the extension,
prepend the `shared/partials/` convention, then convert to Blade dot
notation. -/
def laravelCleanPath (path : String) : String :=
  let p1 := stripLeadingDots path
  let p2 := pathDropSuffix p1
  let p3 :=
    if pyStartsWith p2 "partials/" then
      "shared/partials/" ++ String.mk (p2.data.drop 9)
    else if ¬ strContains p2 '/' then "shared/partials/" ++ p2
    else p2
  pyReplace p3 "/" "."

def PyPairs.toList : PyPairs → List (PyVal × PyVal)
  | .nil => []
  | .cons k v t => (k, v) :: PyPairs.toList t

/-- Python `f"{key}"` for a dict key (keys are strings wherever this is
reached). -/
def pyKeyStr : PyVal → String
  | .str s => s
  | .int n => toString n
  | .bool b => if b then "True" else "False"
  | _ => ""

/-- `LaravelConverter._format_blade_params` for one entry: strings get
single-quote escaping, booleans print as `true`/`false`, other values go
through `json.dumps` (numbers print their lexeme, `None` prints `null`). -/
def formatBladeParam (kv : PyVal × PyVal) : String :=
  let rendered :=
    match kv.2 with
    | .str v => "'" ++ pyReplace v "'" "\\'" ++ "'"
    | .bool b => if b then "true" else "false"
    | .int n => toString n
    | .float lex => lex
    | .pynone => "null"
    | _ => "null"
  "'" ++ pyKeyStr kv.1 ++ "' => " ++ rendered

def formatBladeParams (l : List (PyVal × PyVal)) : String :=
  String.intercalate ", " (l.map formatBladeParam)

/-- One iteration of the rewrite loop of
`_replace_all_includes_with_blade`: normalize the path; a fragment whose
(dot-converted) name is `title-meta` or `app-meta-title` is replaced by the
empty string; otherwise the fragment is replaced by the Blade `@include`
call.  (`_parse_include_params` always returns a dict here, see
`laravel_parse_params_total_and_dict`; a non-dict is rendered as the
no-parameter form.) -/
def laravelReplaceIncludeFragment (content : String) (frag : Fragment) : String :=
  let cleanPath := laravelCleanPath frag.path
  if pyLower (pathName cleanPath) = "title-meta" ∨
     pyLower (pathName cleanPath) = "app-meta-title" then
    pyReplace content frag.full ""
  else
    let params := laravelParseIncludeParams frag.params
    let repl :=
      match params with
      | .dict .nil => "@include('" ++ cleanPath ++ "')"
      | .dict l =>
        "@include('" ++ cleanPath ++ "', [" ++ formatBladeParams l.toList ++ "])"
      | _ => "@include('" ++ cleanPath ++ "')"
    pyReplace content frag.full repl

/-- `LaravelConverter._replace_all_includes_with_blade`: collect all
fragments of the original text, then fold the per-fragment replacement over
the evolving text. -/
def laravelReplaceAllIncludesWithBlade (content : String) : String :=
  (extractFragments content).foldl laravelReplaceIncludeFragment content

/-! ### transpilex/utils/pattern.py : the pattern loader -/

/-- The observable state of a JSON resource file. -/
inductive FileState where
  | missing
  | unreadable
  | content (s : String)
  deriving DecidableEq

/-- The default `{"patterns": {}}` returned by `_load_json` on failure. -/
def defaultPatternsJson : PyVal :=
  .dict (.cons (.str "patterns") (.dict .nil) .nil)

/-- `_load_json` (pattern.py lines 13-20): a missing file returns the
default; `json.JSONDecodeError` and `OSError` are caught and return the
default; otherwise the parsed document (whatever JSON value it is). -/
def loadJsonFile : FileState → PyVal
  | .missing => defaultPatternsJson
  | .unreadable => defaultPatternsJson
  | .content s =>
    match jsonLoads s with
    | some v => v
    | none => defaultPatternsJson

/-- Python `d.get(key, default)`; raises `AttributeError` on a non-dict. -/
def pyDictGet (v : PyVal) (key : String) (dflt : PyVal) : Except String PyVal :=
  match v with
  | .dict l =>
    match (PyPairs.toList l).find? (fun kv => kv.1 = PyVal.str key) with
    | some kv => .ok kv.2
    | none => .ok dflt
  | _ => .error "AttributeError"

/-- `load_import_patterns` (pattern.py lines 23-26): `.get("patterns", {})`
followed by `{**patterns}` (which raises `TypeError` on a non-mapping). -/
def loadImportPatterns (fs : FileState) : Except String (List (PyVal × PyVal)) :=
  match pyDictGet (loadJsonFile fs) "patterns" (.dict .nil) with
  | .error e => .error e
  | .ok p =>
    match p with
    | .dict l => .ok (PyPairs.toList l)
    | _ => .error "TypeError"

/-- The compile loop of `load_compiled_patterns` (pattern.py lines 35-44):
`re.compile` is modelled by `compile : String → Option α` (`none` standing
for a raised `re.error`, which the source catches with a warning and
skips); compiling a non-string value raises `TypeError`, which the source
does not catch. -/
def compileStage {α : Type} (compile : String → Option α) :
    List (PyVal × PyVal) → Except String (List (PyVal × α))
  | [] => .ok []
  | (label, v) :: t =>
    match v with
    | .str src =>
      match compile src with
      | some pat =>
        match compileStage compile t with
        | .error e => .error e
        | .ok r => .ok ((label, pat) :: r)
      | none => compileStage compile t
    | _ => .error "TypeError"

/-- `load_compiled_patterns` (pattern.py lines 35-44). -/
def loadCompiledPatterns {α : Type} (compile : String → Option α)
    (fs : FileState) : Except String (List (PyVal × α)) :=
  match loadImportPatterns fs with
  | .error e => .error e
  | .ok l => compileStage compile l

/-! ### transpilex/utils/replace_variables.py -/

/-- The outcome of `file.read_text(encoding="utf-8")`:
`err` stands for a caught `UnicodeDecodeError` or `OSError`. -/
inductive ReadResult where
  | ok (content : String)
  | err
  deriving DecidableEq

/-- The inner pattern loop of `replace_variables` (lines 39-43): each
pattern's `re.sub` is applied to the evolving content; `subFn` models
`re.sub(regex, replacement, content)`, with `none` standing for a raised
`re.error` (caught: that pattern is skipped and the content kept). -/
def applyVariablePatterns {π : Type} (subFn : π → String → Option String)
    (pats : List π) (content : String) : String :=
  pats.foldl (fun c p =>
    match subFn p c with
    | some c2 => c2
    | none => c) content

/-- The per-file body of `replace_variables` (lines 28-47): an unreadable
file is skipped; a readable one is rewritten (and counted) only when the
substituted content differs from the original.  Returns the content
written, or `none` when the file is not written. -/
def processVariableFile {π : Type} (subFn : π → String → Option String)
    (pats : List π) : ReadResult → Option String
  | .err => none
  | .ok content =>
    if applyVariablePatterns subFn pats content ≠ content then
      some (applyVariablePatterns subFn pats content)
    else none

/-- `replace_variables` over a list of files: the writes performed (file
name and new content, in order) and the modified count. -/
def replaceVariables {π : Type} (subFn : π → String → Option String)
    (pats : List π) (files : List (String × ReadResult)) :
    List (String × String) × Nat :=
  files.foldl (fun acc f =>
    match processVariableFile subFn pats f.2 with
    | some c => (acc.1 ++ [(f.1, c)], acc.2 + 1)
    | none => acc) ([], 0)

/-! ### Grammar-match indicators for the parse-params fallback claim -/

/-- Whether any of the four Laravel parameter grammars matches `raw`:
the JSON branch (brace-delimited and `json.loads` succeeds on the cleaned
text), the PHP `array(...)` search, the Blade pair `findall`, or the bare
key=value `findall`. -/
def laravelAnyGrammar (raw : String) : Bool :=
  let r := htmlUnescape (pyStrip raw)
  (startsWithBrace r && endsWithBrace r &&
    (jsonLoads (subTrailingCommas (subQuoteKeysL r))).isSome) ||
  (pyArraySearch r).isSome ||
  !(findallAux tryBladeMatch r.data.length r.data).isEmpty ||
  !(findallAux tryKvMatchL r.data.length r.data).isEmpty

/-- Whether either Flask parameter grammar yields something: the
brace-delimited branch with `ast.literal_eval` succeeding, or a non-empty
key=value `findall`. -/
def flaskAnyGrammar (raw : String) : Bool :=
  let p := pyStrip raw
  (startsWithBrace p && endsWithBrace p &&
    (literalEval (collapseWs (subTrailingCommas
      (pyReplace (pyReplace (pyReplace (subQuoteKeysF p) "true" "True")
        "false" "False") "null" "None")))).isSome) ||
  !(findallAux tryKvMatchF p.data.length p.data).isEmpty

/-! ### Claims C1, C2, C4, C5 : restructuring and route derivation -/

/-- C1, counterexample: the claim says the route stored in the route map for
`index.html` is `/`, with the trailing `index` segment removed.  The route
computation of `restructure_and_copy_files` performs no such collapsing: it
stores `/index`. -/
theorem route_map_index_html_counterexample :
    routeForFile "kebab" none [] "index.html" = "/index" ∧
    routeForFile "kebab" none [] "index.html" ≠ "/" := by
  constructor <;> decide

/-- C1 (amended): the route stored in the route map is the kebab-cased
restructured relative path with the extension dropped, with no special
treatment of a trailing `index` segment: `index.html` maps to `/index`
(collapsing `/index` to `/` happens downstream in the emitters), and the
other example files map to their full kebab-cased paths.  The `/index`
result is unchanged when a target extension such as `.blade.php` is
applied. -/
theorem route_map_keeps_trailing_index :
    routeForFile "kebab" none [] "index.html" = "/index" ∧
    routeForFile "kebab" (some ".blade.php") [] "index.html" = "/index" ∧
    routeForFile "kebab" none [] "apps-ecommerce-product-grid.html" =
      "/apps/ecommerce/product-grid" ∧
    routeForFile "kebab" none [] "auth-cover-signin-basic.html" =
      "/auth-cover/signin-basic" := by
  refine ⟨by decide, by decide, by decide, by decide⟩

/-- C2, counterexample: the claim says a `NoNestKeywords` match keeps all
accumulated folder segments and the existing parent directories in the
destination path.  For `extra/apps-auth-cover-login.html` the scan
accumulates folders `apps` and `auth-cover` (a no-nest keyword), yet the
code returns `dest_root/apps/login.html`, dropping both the `extra` parent
and the `auth-cover` segment. -/
theorem no_nest_path_drops_parent_counterexample :
    getRestructuredSegs ["extra"] "apps-auth-cover-login.html" =
      ["apps", "login.html"] ∧
    getRestructuredSegs ["extra"] "apps-auth-cover-login.html" ≠
      ["extra", "apps", "auth-cover", "login.html"] := by
  constructor <;> decide

/-- C2 (amended): when no `NoNestKeywords` match stops the scan, the
destination path is `dest_root / existing_parent / folder_segments /
final_filename`; but when a no-nest keyword is matched, the destination is
`dest_root / folder_parts[0] / final_filename` - independent of the
existing parent directories and exactly two segments deep, so the parent
directories and every folder segment after the first are dropped. -/
theorem no_nest_path_shape (parent : List String) (filename : String) :
    ((restructureScan filename).2.2 = false →
      getRestructuredSegs parent filename =
        parent ++ (restructureScan filename).1 ++
          [(restructureScan filename).2.1]) ∧
    ((restructureScan filename).2.2 = true →
      getRestructuredSegs parent filename =
        getRestructuredSegs [] filename ∧
      (getRestructuredSegs parent filename).length = 2) := by
  constructor <;> intro h <;> simp [getRestructuredSegs, h]

/-- Witness for `no_nest_path_shape` at a concrete no-nest input. -/
theorem no_nest_path_shape_witness :
    (restructureScan "apps-auth-cover-login.html").2.2 = true ∧
    (getRestructuredSegs ["extra"] "apps-auth-cover-login.html" =
      getRestructuredSegs [] "apps-auth-cover-login.html" ∧
     (getRestructuredSegs ["extra"] "apps-auth-cover-login.html").length = 2) :=
  ⟨by decide,
   (no_nest_path_shape ["extra"] "apps-auth-cover-login.html").2 (by decide)⟩

/-- C4: the route stored in the route map is not independent of the on-disk
`case_style`.  With `pascal` (used by the MVC, Blazor and Core converters)
the multi-word file stem `product-grid` is first rewritten to `ProductGrid`;
the final `apply_casing(..., "kebab")` pass then sees a single word with no
separators and cannot restore the hyphen, producing `/apps/ecommerce/productgrid`
instead of `/apps/ecommerce/product-grid` - contradicting the code's own
comment "Always kebab-case in URLs, regardless of file/folder case". -/
theorem route_map_depends_on_case_style :
    routeForFile "kebab" none [] "apps-ecommerce-product-grid.html" =
      "/apps/ecommerce/product-grid" ∧
    routeForFile "pascal" none [] "apps-ecommerce-product-grid.html" =
      "/apps/ecommerce/productgrid" ∧
    routeForFile "pascal" none [] "apps-ecommerce-product-grid.html" ≠
      routeForFile "kebab" none [] "apps-ecommerce-product-grid.html" := by
  refine ⟨by decide, by decide, by decide⟩

/-- C5, counterexample: the claim says every filename whose hyphen-split stem
consists entirely of keyword runs yields zero folder segments and the full
stem as filename.  `apps-ecommerce.html` is built from the two keywords
`apps` and `ecommerce`, yet the scan makes a folder of `apps` (only the
final keyword run is kept as the file name). -/
theorem all_keyword_stem_counterexample :
    restructureScan "apps-ecommerce.html" = (["apps"], "ecommerce.html", false) ∧
    (restructureScan "apps-ecommerce.html").1 ≠ [] := by
  constructor <;> decide

/-- C5 (amended): a filename whose stem is a single keyword run (one greedy
match covering the whole stem) yields zero folder segments and the full stem
as the filename - `restructure("dashboard.html") = ([], "dashboard.html")`;
for stems made of several keyword runs, all runs before the last still
become folders. -/
theorem single_keyword_run_collapse (kw : String) (h : kw ∈ FOLDERS_SORTED) :
    restructureScan (kw ++ ".html") = ([], kw ++ ".html", false) := by
  revert kw
  decide

/-- Witness for `single_keyword_run_collapse` at `dashboard.html`. -/
theorem single_keyword_run_collapse_witness :
    "dashboard" ∈ FOLDERS_SORTED ∧
    restructureScan ("dashboard" ++ ".html") =
      ([], "dashboard" ++ ".html", false) :=
  ⟨by decide, single_keyword_run_collapse "dashboard" (by decide)⟩

/-! ### Claim C3 : the title-meta stripping special case -/

/-- C3: the claim says an include fragment whose normalized path ends in
`title-meta` is replaced with the empty string by every emitter's rewriting
pass.  In the Laravel rewriter the check
`Path(clean_path).name.lower() in ("title-meta", "app-meta-title")` runs
only after `clean_path` has been prefixed with `shared/partials/` and
dot-converted, so the name it inspects is
`shared.partials.title-meta` and the check never fires (contradicting the
code's own comment "Skip title includes (they go into extends)"): the
fragment is rewritten into a Blade `@include` call instead of removed.
(The Flask rewriting pass, flask.py lines 209-243, contains no title-meta
check at all.) -/
theorem title_meta_fragment_not_stripped :
    laravelReplaceAllIncludesWithBlade "\x7b\x7b> title-meta title=\"Home\"\x7d\x7d" =
      "@include('shared.partials.title-meta', ['title' => 'Home'])" ∧
    laravelReplaceAllIncludesWithBlade "\x7b\x7b> title-meta title=\"Home\"\x7d\x7d" ≠ "" := by
  constructor <;> decide

/-! ### Claims C6, C7 : parameter parsing -/

theorem tryKeyMatch_head (fc ic : Char → Bool) (c : Char) (cs : List Char)
    (c1 : Char) (id : String) (len : Nat)
    (h : tryKeyMatch fc ic (c :: cs) = some (c1, id, len)) : c1 = c := by
  simp only [tryKeyMatch] at h
  repeat
    first
    | split at h
    | (obtain ⟨-, h⟩ := h)
  all_goals simp_all

theorem subQuoteKeysLAux_head (fuel : Nat) (c : Char) (t : List Char) :
    ∃ u, subQuoteKeysLAux fuel (c :: t) = c :: u := by
  cases fuel with
  | zero => exact ⟨t, rfl⟩
  | succ n =>
    simp only [subQuoteKeysLAux]
    split
    · next c1 id len h =>
      have := tryKeyMatch_head _ _ _ _ _ _ _ h
      subst this
      exact ⟨_, rfl⟩
    · exact ⟨_, rfl⟩

theorem subTrailingCommasAux_brace (fuel : Nat) (t : List Char) :
    ∃ u, subTrailingCommasAux fuel (lbrace :: t) = lbrace :: u := by
  cases fuel with
  | zero => exact ⟨t, rfl⟩
  | succ n =>
    simp only [subTrailingCommasAux]
    have he : tryCommaMatch (lbrace :: t) = none := rfl
    rw [he]
    exact ⟨_, rfl⟩

/-- A successful `jsonValue` parse of input whose first character is an
opening brace always yields a dict. -/
theorem jsonValue_brace_dict (fuel : Nat) (t : List Char) (v : PyVal) (rest : List Char)
    (h : jsonValue fuel (lbrace :: t) = some (v, rest)) : ∃ l, v = PyVal.dict l := by
  cases fuel with
  | zero => simp [jsonValue] at h
  | succ n =>
    have hskip : skipJsonWs (lbrace :: t) = lbrace :: t := by
      simp [skipJsonWs, List.dropWhile_cons, show jsonWsChar lbrace = false from rfl]
    simp only [jsonValue, hskip] at h
    repeat'
      first
      | split at h
      | (obtain ⟨-, h⟩ := h)
    all_goals simp_all

/-- The Laravel JSON branch only succeeds with a dict: the cleaning passes
preserve the leading brace, and a JSON document starting with a brace is an
object. -/
theorem laravel_json_branch_dict (r : String) (hb : startsWithBrace r = true) (v : PyVal)
    (h : jsonLoads (subTrailingCommas (subQuoteKeysL r)) = some v) :
    ∃ l, v = PyVal.dict l := by
  obtain ⟨c, t, hct⟩ : ∃ c t, r.data = c :: t := by
    cases hd : r.data with
    | nil => rw [startsWithBrace, hd] at hb; simp at hb
    | cons c t => exact ⟨c, t, rfl⟩
  have hc : c = lbrace := by
    rw [startsWithBrace, hct] at hb
    simpa using hb
  subst hc
  obtain ⟨u, hu⟩ := subQuoteKeysLAux_head r.data.length lbrace t
  have h1 : (subQuoteKeysL r).data = lbrace :: u := by
    rw [subQuoteKeysL]
    rw [hct] at hu ⊢
    rw [hu]
  obtain ⟨w, hw⟩ := subTrailingCommasAux_brace (subQuoteKeysL r).data.length u
  have h2 : (subTrailingCommas (subQuoteKeysL r)).data = lbrace :: w := by
    rw [subTrailingCommas]
    rw [h1] at hw ⊢
    rw [hw]
  rw [jsonLoads, h2] at h
  rcases hjv : jsonValue ((lbrace :: w).length + 1) (lbrace :: w) with _ | ⟨v', rest⟩
  · rw [hjv] at h
    simp at h
  · rw [hjv] at h
    have hv : v' = v := by
      by_cases hsk : skipJsonWs rest = []
      · simpa [hsk] using h
      · simp [hsk] at h
    subst hv
    exact jsonValue_brace_dict _ _ _ _ hjv

/-- Every non-JSON grammar of the Laravel parser returns a dict. -/
theorem laravelParamsFallback_dict (r : String) :
    ∃ l, laravelParamsFallback r = PyVal.dict l := by
  unfold laravelParamsFallback laravelExtractPhpArrayParams
  repeat' split
  all_goals exact ⟨_, rfl⟩

theorem laravelParseIncludeParams_eq (raw : String) (h0 : ¬ raw = "") :
    laravelParseIncludeParams raw =
      (match (if startsWithBrace (htmlUnescape (pyStrip raw)) &&
                 endsWithBrace (htmlUnescape (pyStrip raw)) then
                jsonLoads (subTrailingCommas (subQuoteKeysL (htmlUnescape (pyStrip raw))))
              else none) with
       | some v => v
       | none => laravelParamsFallback (htmlUnescape (pyStrip raw))) := by
  simp only [laravelParseIncludeParams]
  rw [if_neg h0]

theorem laravelParseParams_isDict (raw : String) :
    ∃ l, laravelParseIncludeParams raw = PyVal.dict l := by
  by_cases h0 : raw = ""
  · exact ⟨.nil, by rw [laravelParseIncludeParams, if_pos h0]⟩
  · rw [laravelParseIncludeParams_eq raw h0]
    rcases hj : (if startsWithBrace (htmlUnescape (pyStrip raw)) &&
        endsWithBrace (htmlUnescape (pyStrip raw)) then
        jsonLoads (subTrailingCommas (subQuoteKeysL (htmlUnescape (pyStrip raw))))
      else none) with _ | v
    · exact laravelParamsFallback_dict _
    · have hcond : (startsWithBrace (htmlUnescape (pyStrip raw)) &&
          endsWithBrace (htmlUnescape (pyStrip raw))) = true := by
        by_contra hq
        rw [Bool.not_eq_true] at hq
        rw [if_neg (by simp [hq])] at hj
        exact Option.noConfusion hj
      rw [if_pos hcond] at hj
      have hb : startsWithBrace (htmlUnescape (pyStrip raw)) = true := by
        have hc2 := hcond
        simp only [Bool.and_eq_true] at hc2
        exact hc2.1
      obtain ⟨l, rfl⟩ := laravel_json_branch_dict _ hb v hj
      exact ⟨l, rfl⟩

theorem laravelParseParams_empty_of_no_grammar (raw : String)
    (hAG : laravelAnyGrammar raw = false) :
    laravelParseIncludeParams raw = PyVal.dict .nil := by
  simp only [laravelAnyGrammar, Bool.or_eq_false_iff] at hAG
  obtain ⟨⟨⟨hA, hB⟩, hC⟩, hD⟩ := hAG
  by_cases h0 : raw = ""
  · rw [laravelParseIncludeParams, if_pos h0]
  · rw [laravelParseIncludeParams_eq raw h0]
    have hjson : (if startsWithBrace (htmlUnescape (pyStrip raw)) &&
        endsWithBrace (htmlUnescape (pyStrip raw)) then
        jsonLoads (subTrailingCommas (subQuoteKeysL (htmlUnescape (pyStrip raw))))
      else none) = none := by
      by_cases hc : (startsWithBrace (htmlUnescape (pyStrip raw)) &&
          endsWithBrace (htmlUnescape (pyStrip raw))) = true
      · rw [if_pos hc]
        rcases hjv : jsonLoads (subTrailingCommas (subQuoteKeysL
            (htmlUnescape (pyStrip raw)))) with _ | v
        · rfl
        · rw [hc, hjv] at hA
          simp at hA
      · rw [if_neg hc]
    rw [hjson]
    have hBn : pyArraySearch (htmlUnescape (pyStrip raw)) = none := by
      rcases hp : pyArraySearch (htmlUnescape (pyStrip raw)) with _ | b
      · rfl
      · rw [hp] at hB
        simp at hB
    have hCl : findallAux tryBladeMatch (htmlUnescape (pyStrip raw)).data.length
        (htmlUnescape (pyStrip raw)).data = [] := by
      simp only [Bool.not_eq_false'] at hC
      exact List.isEmpty_iff.1 hC
    have hDl : findallAux tryKvMatchL (htmlUnescape (pyStrip raw)).data.length
        (htmlUnescape (pyStrip raw)).data = [] := by
      simp only [Bool.not_eq_false'] at hD
      exact List.isEmpty_iff.1 hD
    show laravelParamsFallback (htmlUnescape (pyStrip raw)) = PyVal.dict .nil
    rw [laravelParamsFallback, hBn]
    rw [if_neg (not_not_intro hCl), if_neg (not_not_intro hDl)]

theorem flaskParseParams_empty_of_no_grammar (raw : String)
    (hFG : flaskAnyGrammar raw = false) :
    flaskParseIncludeParams raw = PyVal.dict .nil := by
  simp only [flaskAnyGrammar, Bool.or_eq_false_iff] at hFG
  obtain ⟨hE, hK⟩ := hFG
  by_cases hp : pyStrip raw = ""
  · rw [flaskParseIncludeParams, if_pos hp]
  · rw [flaskParseIncludeParams, if_neg hp]
    by_cases hc : (startsWithBrace (pyStrip raw) && endsWithBrace (pyStrip raw)) = true
    · rw [if_pos hc]
      rcases hle : literalEval (collapseWs (subTrailingCommas
          (pyReplace (pyReplace (pyReplace (subQuoteKeysF (pyStrip raw)) "true" "True")
            "false" "False") "null" "None"))) with _ | v
      · rfl
      · rw [hc, hle] at hE
        simp at hE
    · rw [if_neg hc]
      have hKl : findallAux tryKvMatchF (pyStrip raw).data.length (pyStrip raw).data = [] := by
        simp only [Bool.not_eq_false'] at hK
        exact List.isEmpty_iff.1 hK
      rw [hKl]
      rfl

/-- C6, counterexample: the claim says `parse_params` always returns a
mapping.  The Flask variant hands brace-delimited input to
`ast.literal_eval`, which also parses Python set literals: on `'\x7b1, 2\x7d'`
(a brace-delimited set literal) it returns the set `(1, 2)` - not a
mapping. -/
theorem flask_parse_params_set_counterexample :
    flaskParseIncludeParams (String.mk [lbrace] ++ "1, 2" ++ String.mk [rbrace]) =
      PyVal.set (.cons (.int 1) (.cons (.int 2) .nil)) ∧
    (flaskParseIncludeParams (String.mk [lbrace] ++ "1, 2" ++ String.mk [rbrace])).isDict
      = false := by
  constructor <;> decide

/-- C6 (amended): both `_parse_include_params` implementations are total
(exceptions from `json.loads` / `ast.literal_eval` / the regex calls are
caught, modelled by the `Option` results), and when no grammar matches they
return the empty mapping.  The Laravel variant always returns a mapping;
the Flask variant returns whatever Python literal its brace branch parses,
which need not be a mapping (see the set counterexample). -/
theorem parse_params_empty_on_no_match (raw : String) :
    (∃ l, laravelParseIncludeParams raw = PyVal.dict l) ∧
    (laravelAnyGrammar raw = false → laravelParseIncludeParams raw = PyVal.dict .nil) ∧
    (flaskAnyGrammar raw = false → flaskParseIncludeParams raw = PyVal.dict .nil) :=
  ⟨laravelParseParams_isDict raw,
   laravelParseParams_empty_of_no_grammar raw,
   flaskParseParams_empty_of_no_grammar raw⟩

/-- Witness for `parse_params_empty_on_no_match` on unparsable garbage. -/
theorem parse_params_empty_on_no_match_witness :
    (∃ l, laravelParseIncludeParams "total garbage !!" = PyVal.dict l) ∧
    laravelAnyGrammar "total garbage !!" = false ∧
    laravelParseIncludeParams "total garbage !!" = PyVal.dict .nil ∧
    flaskAnyGrammar "total garbage !!" = false ∧
    flaskParseIncludeParams "total garbage !!" = PyVal.dict .nil :=
  ⟨(parse_params_empty_on_no_match "total garbage !!").1,
   by decide,
   (parse_params_empty_on_no_match "total garbage !!").2.1 (by decide),
   by decide,
   (parse_params_empty_on_no_match "total garbage !!").2.2 (by decide)⟩

/-- C7: on the JSON-like input `'\x7btitle: "Home", active: true\x7d'` both
parameter parsers quote the unquoted keys, convert the bare `true` literal
to a boolean, and return exactly the mapping
`("title" : "Home", "active" : True)`. -/
theorem parse_params_json_roundtrip :
    laravelParseIncludeParams
        (String.mk [lbrace] ++ "title: \"Home\", active: true" ++ String.mk [rbrace]) =
      PyVal.dict (.cons (.str "title") (.str "Home")
        (.cons (.str "active") (.bool true) .nil)) ∧
    flaskParseIncludeParams
        (String.mk [lbrace] ++ "title: \"Home\", active: true" ++ String.mk [rbrace]) =
      PyVal.dict (.cons (.str "title") (.str "Home")
        (.cons (.str "active") (.bool true) .nil)) := by
  constructor <;> decide

/-! ### Claim C8 : escaped and unescaped include forms -/

/-- C8: fragment extraction (which scans with the derived pattern accepting
both `>` and `&gt;`) finds exactly one fragment, with path
`partials/footer`, in both the unescaped text and the HTML-entity-escaped
text of the same include directive. -/
theorem include_extraction_escaped_and_unescaped :
    extractFragments (String.mk [lbrace, lbrace] ++ "> partials/footer" ++
        String.mk [rbrace, rbrace]) =
      [Fragment.mk (String.mk [lbrace, lbrace] ++ "> partials/footer" ++
        String.mk [rbrace, rbrace]) "partials/footer" ""] ∧
    extractFragments (String.mk [lbrace, lbrace] ++ "&gt; partials/footer" ++
        String.mk [rbrace, rbrace]) =
      [Fragment.mk (String.mk [lbrace, lbrace] ++ "&gt; partials/footer" ++
        String.mk [rbrace, rbrace]) "partials/footer" ""] := by
  constructor <;> decide

/-! ### Claim C9 : pattern-loader error handling -/

/-- C9: if the pattern resource file is missing, unreadable or not valid
JSON, `load_compiled_patterns` returns the empty registry instead of
raising; and on a well-formed registry every entry whose regex fails to
compile is skipped while the remaining entries are compiled in order. -/
theorem pattern_loader_never_raises {α : Type} (compile : String → Option α) :
    (∀ fs : FileState,
        (fs = .missing ∨ fs = .unreadable ∨ ∃ s, fs = .content s ∧ jsonLoads s = none) →
        loadCompiledPatterns compile fs = .ok []) ∧
    (∀ entries : List (String × String),
        compileStage compile (entries.map (fun e => (PyVal.str e.1, PyVal.str e.2))) =
          .ok (entries.filterMap
            (fun e => (compile e.2).map (fun p => (PyVal.str e.1, p))))) := by
  constructor
  · rintro fs (rfl | rfl | ⟨s, rfl, hs⟩)
    · rfl
    · rfl
    · simp [loadCompiledPatterns, loadImportPatterns, loadJsonFile, hs,
        pyDictGet, defaultPatternsJson, PyPairs.toList, compileStage]
  · intro entries
    induction entries with
    | nil => rfl
    | cons e t ih =>
      cases hc : compile e.2 with
      | none => simp [compileStage, hc, ih]
      | some p => simp [compileStage, hc, ih]

/-- Witness for `pattern_loader_never_raises` with a concrete compiler that
rejects the regex source `"bad"`. -/
theorem pattern_loader_never_raises_witness :
    loadCompiledPatterns (fun s => if s = "bad" then none else some s)
      FileState.missing = .ok [] ∧
    compileStage (fun s => if s = "bad" then none else some s)
      ([("a", "x"), ("b", "bad")].map (fun e => (PyVal.str e.1, PyVal.str e.2))) =
      .ok [(PyVal.str "a", "x")] :=
  ⟨(pattern_loader_never_raises (fun s => if s = "bad" then none else some s)).1
     .missing (Or.inl rfl),
   by
     rw [(pattern_loader_never_raises (fun s => if s = "bad" then none else some s)).2
       [("a", "x"), ("b", "bad")]]
     rfl⟩

/-! ### Claim C10 : replace_variables frame property -/

/-- C10: `replace_variables` rewrites a file only when the substitutions
change its content: if every pattern's substitution leaves the file's text
unchanged (in particular when no pattern matches, since `re.sub` with no
match is the identity) the file is neither written nor counted; an
undecodable file is likewise skipped. -/
theorem replace_variables_skips_unchanged {π : Type}
    (subFn : π → String → Option String) (pats : List π) (content : String)
    (h : ∀ p ∈ pats, subFn p content = some content ∨ subFn p content = none) :
    applyVariablePatterns subFn pats content = content ∧
    processVariableFile subFn pats (.ok content) = none ∧
    processVariableFile subFn pats .err = none ∧
    replaceVariables subFn pats [("page.php", .ok content)] = ([], 0) := by
  have key : ∀ l : List π,
      (∀ p ∈ l, subFn p content = some content ∨ subFn p content = none) →
      applyVariablePatterns subFn l content = content := by
    intro l
    induction l with
    | nil => intro _; rfl
    | cons p t ih =>
      intro hl
      have hp := hl p (List.mem_cons_self p t)
      have step : (match subFn p content with
          | some c2 => c2
          | none => content) = content := by
        rcases hp with hp | hp <;> rw [hp]
      calc applyVariablePatterns subFn (p :: t) content
          = applyVariablePatterns subFn t
              (match subFn p content with
               | some c2 => c2
               | none => content) := rfl
        _ = applyVariablePatterns subFn t content := by rw [step]
        _ = content := ih (fun q hq => hl q (List.mem_cons_of_mem p hq))
  have k := key pats h
  have hproc : processVariableFile subFn pats (.ok content) = none := by
    show (if applyVariablePatterns subFn pats content ≠ content then
        some (applyVariablePatterns subFn pats content) else none) = none
    rw [if_neg (not_not_intro k)]
  refine ⟨k, hproc, rfl, ?_⟩
  simp [replaceVariables, hproc]

/-- Witness for `replace_variables_skips_unchanged` with the identity
substitution. -/
theorem replace_variables_skips_unchanged_witness :
    applyVariablePatterns (fun (_ : Unit) (s : String) => some s) [()] "x" = "x" ∧
    processVariableFile (fun (_ : Unit) (s : String) => some s) [()]
      (.ok "x") = none ∧
    processVariableFile (fun (_ : Unit) (s : String) => some s) [()] .err = none ∧
    replaceVariables (fun (_ : Unit) (s : String) => some s) [()]
      [("page.php", .ok "x")] = ([], 0) :=
  replace_variables_skips_unchanged _ [()] "x" (fun _ _ => Or.inl rfl)

end Transpilex
